import Mathlib

/-!
Verification of the error-classification module `autoextract/aio/errors.py`
of the scrapinghub-autoextract client.

The module is embedded shallowly:

* Python strings are `List Char`; `str.lower` is `List.map Char.toLower`
  (the relevant literals are ASCII) and `str.strip` drops
  `Char.isWhitespace` characters from both ends.
* The anchored search `DOMAIN_OCCUPIED_REGEX.match(message)` for the
  pattern `.*domain (.+) is occupied, please retry in (.+) seconds.*`
  (IGNORECASE) is embedded as an explicit backtracking matcher
  (`domainOccupiedRegexMatch`): `.`/`.+`/`.*` never cross a newline, the
  literal tokens are compared case-insensitively, and every
  quantifier is greedy — longer consumptions are tried first, exactly as
  Python's backtracking engine does.
* Python `float(str)` is embedded as `pyFloat`, returning an exact
  `PyFloat` value (finite decimal, infinity, or NaN) for the grammar
  accepted by CPython: optional surrounding whitespace, optional sign,
  `inf`/`infinity`/`nan` keywords, or a decimal mantissa with optional
  fraction, single underscores between digits, and optional exponent.
* Python dicts (as used by `from_query_result` and the `RequestError`
  kwargs) are association lists; a missing key is a `KeyError` value.
* Exceptions raised during construction are `Except` results.
-/

/-- Values of a Python float as produced by `float(str)`: an exact finite
decimal `finite num d10` denoting `num / 10 ^ d10`, one of the two
infinities, or NaN.  (The exact-decimal form keeps every operation on
integers, so that all comparisons compute; the spec's float literals are
`finite 45 0` for `45.0`, `finite 300 0` for `300.0`, `finite 0 0` for
`0.0`, and so on.) -/
inductive PyFloat where
  | finite (num : Int) (d10 : Nat)
  | pinf
  | ninf
  | nan
deriving DecidableEq

/-- The exact rational value of a finite Python float. -/
def PyFloat.toRat : PyFloat → Option ℚ
  | .finite n d => some ((n : ℚ) / ((10 : ℚ) ^ d))
  | _ => none

/-- Comparison `x >= 0` on Python floats (false for NaN, as in IEEE-754). -/
def PyFloat.nonneg : PyFloat → Bool
  | .finite n _ => decide (0 ≤ n)
  | .pinf => true
  | .ninf => false
  | .nan => false

/-- Comparison `x == 0.0` on Python floats (false for NaN). -/
def PyFloat.isZero : PyFloat → Bool
  | .finite n _ => decide (n = 0)
  | .pinf => false
  | .ninf => false
  | .nan => false

/-- Length of the longest newline-free prefix: the maximal number of leading
characters that `.` of the regex (without DOTALL) may consume. -/
def nlFreePrefixLen : List Char → Nat
  | [] => 0
  | c :: cs => if c = '\n' then 0 else nlFreePrefixLen cs + 1

/-- Match a literal token of the regex case-insensitively (the pattern is
lower-case ASCII, and IGNORECASE compares lower-cased characters): returns
the remainder of the input after the token, or `none`. -/
def stripLitCI : List Char → List Char → Option (List Char)
  | [], s => some s
  | _, [] => none
  | t :: ts, c :: cs => if c.toLower = t then stripLitCI ts cs else none

/-- Greedy `.*`: try the continuation after consuming `n` characters first,
then backtrack to shorter consumptions, down to the empty one. -/
def tryDrops {α : Type} (k : List Char → Option α) (s : List Char) : Nat → Option α
  | 0 => k s
  | n + 1 =>
    match k (s.drop (n + 1)) with
    | some v => some v
    | none => tryDrops k s n

/-- Greedy capturing `(.+)`: try the longest capture (of length `n`) first,
backtracking down to length 1; the continuation receives the captured
group and the remainder. -/
def tryCapture {α : Type} (k : List Char → List Char → Option α) (s : List Char) : Nat → Option α
  | 0 => none
  | n + 1 =>
    match k (s.take (n + 1)) (s.drop (n + 1)) with
    | some v => some v
    | none => tryCapture k s n

/-- First literal token of `DOMAIN_OCCUPIED_REGEX`. -/
def LIT1 : List Char := ("domain ").data

/-- Second literal token of `DOMAIN_OCCUPIED_REGEX`. -/
def LIT2 : List Char := (" is occupied, please retry in ").data

/-- Third literal token of `DOMAIN_OCCUPIED_REGEX`. -/
def LIT3 : List Char := (" seconds").data

/-- Continuation after capturing group 2 as `g2`: match the literal
` seconds` against the remainder and return both groups (the trailing
`.*` constrains nothing and is omitted). -/
def docStep3Body (g1 g2 s5 : List Char) : Option (List Char × List Char) :=
  match stripLitCI LIT3 s5 with
  | none => none
  | some _ => some (g1, g2)

/-- Tail of the regex after the second capture's start: greedily capture
`(.+)` as group 2, then match the literal ` seconds`. -/
def docStep3 (g1 : List Char) (r2 : List Char) : Option (List Char × List Char) :=
  tryCapture (docStep3Body g1) r2 (nlFreePrefixLen r2)

/-- Continuation after capturing group 1 as `g1`: match the literal
` is occupied, please retry in ` against the remainder and continue. -/
def docStep2Body (g1 s3 : List Char) : Option (List Char × List Char) :=
  match stripLitCI LIT2 s3 with
  | none => none
  | some r2 => docStep3 g1 r2

/-- Tail of the regex after the first capture's start: greedily capture
`(.+)` as group 1, then match the literal
` is occupied, please retry in ` and continue. -/
def docStep2 (r1 : List Char) : Option (List Char × List Char) :=
  tryCapture docStep2Body r1 (nlFreePrefixLen r1)

/-- Tail of the regex after the leading `.*`: match the literal `domain `
and continue. -/
def docStep1 (s1 : List Char) : Option (List Char × List Char) :=
  match stripLitCI LIT1 s1 with
  | none => none
  | some r1 => docStep2 r1

/-- Embedding of `DOMAIN_OCCUPIED_REGEX.match(message)` for the pattern
`.*domain (.+) is occupied, please retry in (.+) seconds.*` with
IGNORECASE: returns the two captured groups on success.  The leading `.*`
and both `(.+)` are greedy and cannot cross a newline; a successful
match's consumed region starts at position 0 (`re.match` anchors the
start only). -/
def domainOccupiedRegexMatch (m : List Char) : Option (List Char × List Char) :=
  tryDrops docStep1 m (nlFreePrefixLen m)

/-- Numeric value of a decimal digit character. -/
def digitVal (c : Char) : Nat := c.toNat - 48

/-- Consume a maximal run of decimal digits with single underscores allowed
between digits (CPython's `digitpart`): accumulates the value and the
number of digits, returning the unconsumed remainder.  A trailing
underscore, or one not followed by a digit, is left unconsumed. -/
def digitRun : Nat → Nat → List Char → Nat × Nat × List Char
  | acc, cnt, [] => (acc, cnt, [])
  | acc, cnt, [c] =>
    if c.isDigit then (acc * 10 + digitVal c, cnt + 1, []) else (acc, cnt, [c])
  | acc, cnt, c :: c2 :: cs =>
    if c.isDigit then digitRun (acc * 10 + digitVal c) (cnt + 1) (c2 :: cs)
    else if c = '_' && c2.isDigit then digitRun (acc * 10 + digitVal c2) (cnt + 1) cs
    else (acc, cnt, c :: c2 :: cs)

/-- A `digitpart` must begin with a digit (underscores are only permitted
between digits); otherwise nothing is consumed and the count is 0. -/
def digitPart (s : List Char) : Nat × Nat × List Char :=
  match s with
  | c :: _ => if c.isDigit then digitRun 0 0 s else (0, 0, s)
  | [] => (0, 0, [])

/-- Exact value of a parsed decimal float literal
`sign * (intpart + fracpart / 10 ^ fracdigits) * 10 ^ (±exp)`, as a
numerator and a power-of-ten denominator exponent:
`(intpart * 10 ^ fracdigits + fracpart) / 10 ^ fracdigits` scaled by the
exponent on the proper side. -/
def pyDecValue (neg : Bool) (iv fv fcnt : Nat) (eneg : Bool) (ev : Nat) : PyFloat :=
  let num0 : Int := ((iv * 10 ^ fcnt + fv : Nat) : Int)
  let pe : Int × Nat := if eneg then (num0, fcnt + ev) else (num0 * ((10 ^ ev : Nat) : Int), fcnt)
  PyFloat.finite (if neg then -pe.1 else pe.1) pe.2

/-- Embedding of CPython's `float(str)`: `none` models a `ValueError`.
Accepts optional whitespace around, an optional sign, the keywords
`nan` / `inf` / `infinity` (case-insensitively), or a decimal literal
`digitpart ["." [digitpart]] | "." digitpart` with an optional
`("e"|"E") [sign] digitpart` exponent, underscores only between digits. -/
def pyFloat (s : List Char) : Option PyFloat :=
  let s1 := s.dropWhile Char.isWhitespace
  let p :=
    match s1 with
    | '+' :: r => (false, r)
    | '-' :: r => (true, r)
    | _ => (false, s1)
  let neg := p.1
  let s2 := p.2
  match stripLitCI (("nan").data) s2 with
  | some r => if r.dropWhile Char.isWhitespace = [] then some PyFloat.nan else none
  | none =>
  match stripLitCI (("infinity").data) s2 with
  | some r =>
    if r.dropWhile Char.isWhitespace = [] then
      some (if neg then PyFloat.ninf else PyFloat.pinf)
    else none
  | none =>
  match stripLitCI (("inf").data) s2 with
  | some r =>
    if r.dropWhile Char.isWhitespace = [] then
      some (if neg then PyFloat.ninf else PyFloat.pinf)
    else none
  | none =>
    let ipart := digitPart s2
    let iv := ipart.1
    let icnt := ipart.2.1
    let s3 := ipart.2.2
    let fpart :=
      match s3 with
      | '.' :: r => digitPart r
      | _ => (0, 0, s3)
    let fv := fpart.1
    let fcnt := fpart.2.1
    let s4 : List Char :=
      match s3 with
      | '.' :: _ => fpart.2.2
      | _ => s3
    if icnt + fcnt = 0 then none
    else
      match s4 with
      | 'e' :: r | 'E' :: r =>
        let pe :=
          match r with
          | '+' :: r3 => (false, r3)
          | '-' :: r3 => (true, r3)
          | _ => (false, r)
        let epart := digitPart pe.2
        if epart.2.1 = 0 then none
        else if epart.2.2.dropWhile Char.isWhitespace = [] then
          some (pyDecValue neg iv fv fcnt pe.1 epart.1)
        else none
      | _ =>
        if s4.dropWhile Char.isWhitespace = [] then
          some (pyDecValue neg iv fv fcnt false 0)
        else none

/-- Python `str.strip()` (ASCII whitespace): drop whitespace from both ends. -/
def pyStrip (s : List Char) : List Char :=
  ((s.dropWhile Char.isWhitespace).reverse.dropWhile Char.isWhitespace).reverse

/-- Python `str.lower()` (the compared literals are ASCII). -/
def pyLower (s : List Char) : List Char := s.map Char.toLower

/-- Embedding of `message.lower().strip()` — the normalization applied before the
retriable-reason lookup. -/
def pyLowerStrip (s : List Char) : List Char := pyStrip (pyLower s)

/-- Embedding of `DomainOccupied`: a parsed retry directive. -/
structure DomainOccupied where
  domain : List Char
  retry_seconds : PyFloat
deriving DecidableEq

/-- Embedding of `DomainOccupied.DEFAULT_RETRY_SECONDS = 5 * 60`. -/
def DomainOccupied.DEFAULT_RETRY_SECONDS : PyFloat := PyFloat.finite (5 * 60) 0

/-- Embedding of `DomainOccupied.from_message`: `none` when the regex does
not match; otherwise group 1 becomes `domain` and `float(group(2))`
becomes `retry_seconds`, falling back to `DEFAULT_RETRY_SECONDS` when the
conversion raises `ValueError` (the logged warning is a side effect not
modelled). -/
def DomainOccupied.from_message (message : List Char) : Option DomainOccupied :=
  match domainOccupiedRegexMatch message with
  | none => none
  | some g =>
    let retry_seconds :=
      match pyFloat g.2 with
      | some v => v
      | none => DomainOccupied.DEFAULT_RETRY_SECONDS
    some { domain := g.1, retry_seconds := retry_seconds }

/-- A Python value as handled by this module: a string, or any other
object treated opaquely (queries, headers, parsed bodies …). -/
inductive PyVal where
  | str (s : List Char)
  | obj (id : Nat)
deriving DecidableEq

/-- A Python exception as raised by the embedded operations. -/
inductive PyErr where
  | keyError (k : List Char)
  | typeError
deriving DecidableEq

/-- Lookup `d[k]` on a dict (association list): the value, or a `KeyError`. -/
def pyDictGet (d : List (List Char × PyVal)) (k : List Char) : Except PyErr PyVal :=
  match d.find? (fun p => decide (p.1 = k)) with
  | some p => Except.ok p.2
  | none => Except.error (PyErr.keyError k)

/-- Removal `d.pop(k)` with no default: the value and the dict without the key, or
a `KeyError`. -/
def pyDictPop (d : List (List Char × PyVal)) (k : List Char) :
    Except PyErr (PyVal × List (List Char × PyVal)) :=
  match d.find? (fun p => decide (p.1 = k)) with
  | some p => Except.ok (p.2, d.eraseP (fun q => decide (q.1 = k)))
  | none => Except.error (PyErr.keyError k)

/-- Embedding of the `RETRIABLE_MESSAGES` set: the listed literals,
normalized by `message.lower().strip()` exactly as in the source. -/
def RETRIABLE_MESSAGES : List (List Char) :=
  [("query timed out").data,
   ("Downloader error: No response (network5)").data,
   ("Downloader error: http50").data,
   ("Downloader error: GlobalTimeoutError").data,
   ("Proxy error: banned").data,
   ("Proxy error: internal_error").data,
   ("Proxy error: nxdomain").data,
   ("Proxy error: timeout").data,
   ("Proxy error: ssl_tunnel_error").data,
   ("Proxy error: msgtimeout").data,
   ("Proxy error: econnrefused").data].map pyLowerStrip

/-- Embedding of `_QueryError`'s state after `__init__`. -/
structure _QueryError where
  query : PyVal
  message : List Char
  max_retries : Int
  domain_occupied : Option DomainOccupied
deriving DecidableEq

/-- Embedding of `_QueryError.__init__`: stores its arguments and derives
`domain_occupied` from `message` at construction. -/
def _QueryError.make (query : PyVal) (message : List Char) (max_retries : Int) : _QueryError :=
  { query := query, message := message, max_retries := max_retries,
    domain_occupied := DomainOccupied.from_message message }

/-- Embedding of `_QueryError.from_query_result`: looks up `"query"` then
`"error"` (a missing key raises `KeyError`), and constructs the error.
Constructing with a non-string message raises `TypeError` (in the source
it is raised by `re.match` inside `DomainOccupied.from_message`, called
from `__init__`). -/
def _QueryError.from_query_result (query_result : List (List Char × PyVal))
    (max_retries : Int) : Except PyErr _QueryError :=
  match pyDictGet query_result (("query").data) with
  | Except.error e => Except.error e
  | Except.ok q =>
    match pyDictGet query_result (("error").data) with
    | Except.error e => Except.error e
    | Except.ok (PyVal.str m) => Except.ok (_QueryError.make q m max_retries)
    | Except.ok _ => Except.error PyErr.typeError

/-- Embedding of the `_QueryError.retriable` property. -/
def _QueryError.retriable (e : _QueryError) : Bool :=
  e.domain_occupied.isSome || decide (pyLowerStrip e.message ∈ RETRIABLE_MESSAGES)

/-- Embedding of the `_QueryError.retry_seconds` property. -/
def _QueryError.retry_seconds (e : _QueryError) : PyFloat :=
  match e.domain_occupied with
  | some d => d.retry_seconds
  | none => PyFloat.finite 0 0

/-- Embedding of `RequestError`'s state: the positional arguments and
remaining keyword arguments forwarded to `ClientResponseError.__init__`,
plus the popped `response_content`. -/
structure RequestError where
  args : List PyVal
  kwargs : List (List Char × PyVal)
  response_content : PyVal
deriving DecidableEq

/-- Embedding of `RequestError.__init__`: pops `response_content` from the
keyword arguments (raising `KeyError` when absent) and forwards the rest. -/
def RequestError.make (args : List PyVal) (kwargs : List (List Char × PyVal)) :
    Except PyErr RequestError :=
  match pyDictPop kwargs (("response_content").data) with
  | Except.error e => Except.error e
  | Except.ok vr => Except.ok { args := args, kwargs := vr.2, response_content := vr.1 }

/-! ## Basic unfolding lemmas -/

/-- The derived `domain_occupied` of a constructed `_QueryError` is the
directive parsed from its message. -/
theorem make_domain_occupied (q : PyVal) (m : List Char) (r : Int) :
    (_QueryError.make q m r).domain_occupied = DomainOccupied.from_message m := rfl

/-- Property `retry_seconds` of a constructed `_QueryError`, by cases on the parse. -/
theorem make_retry_seconds (q : PyVal) (m : List Char) (r : Int) :
    (_QueryError.make q m r).retry_seconds =
      match DomainOccupied.from_message m with
      | some d => d.retry_seconds
      | none => PyFloat.finite 0 0 := by
  show _QueryError.retry_seconds _ = _
  rw [_QueryError.retry_seconds, make_domain_occupied]

/-- Property `retriable` of a constructed `_QueryError`, unfolded. -/
theorem make_retriable (q : PyVal) (m : List Char) (r : Int) :
    (_QueryError.make q m r).retriable =
      ((DomainOccupied.from_message m).isSome ||
        decide (pyLowerStrip m ∈ RETRIABLE_MESSAGES)) := rfl

/-! ## C9: `retriable` and `retry_seconds` depend only on `message` -/

/-- C9: `retriable` and `retry_seconds` are deterministic functions of the
message alone — two `_QueryError`s built from the same message but
arbitrary different queries and retry budgets agree on both derived
properties. -/
theorem claim_C9 (m : List Char) (q1 q2 : PyVal) (r1 r2 : Int) :
    (_QueryError.make q1 m r1).retriable = (_QueryError.make q2 m r2).retriable ∧
    (_QueryError.make q1 m r1).retry_seconds = (_QueryError.make q2 m r2).retry_seconds := by
  exact ⟨rfl, rfl⟩

/-! ## C2: matching message with numeric seconds -/

/-- C2: when the regex matches with groups `(g1, g2)` and `float(g2)`
parses to `v`, `from_message` returns the directive `⟨g1, v⟩`, and a
`_QueryError` built from the message is retriable with `retry_seconds = v`. -/
theorem claim_C2 (m g1 g2 : List Char) (v : PyFloat) (q : PyVal) (r : Int)
    (hm : domainOccupiedRegexMatch m = some (g1, g2))
    (hv : pyFloat g2 = some v) :
    DomainOccupied.from_message m = some { domain := g1, retry_seconds := v } ∧
    (_QueryError.make q m r).retriable = true ∧
    (_QueryError.make q m r).retry_seconds = v := by
  have hfm : DomainOccupied.from_message m = some { domain := g1, retry_seconds := v } := by
    rw [DomainOccupied.from_message, hm]
    simp only [hv]
  refine ⟨hfm, ?_, ?_⟩
  · rw [make_retriable, hfm]
    simp
  · rw [make_retry_seconds, hfm]

/-- Witness for C2 at the spec's own scenario message. -/
theorem claim_C2_witness :
    DomainOccupied.from_message (("Domain example.com is occupied, please retry in 45 seconds.").data) =
      some { domain := ("example.com").data, retry_seconds := PyFloat.finite 45 0 } ∧
    (_QueryError.make (PyVal.obj 0) (("Domain example.com is occupied, please retry in 45 seconds.").data) 3).retriable = true ∧
    (_QueryError.make (PyVal.obj 0) (("Domain example.com is occupied, please retry in 45 seconds.").data) 3).retry_seconds = PyFloat.finite 45 0 :=
  claim_C2 (("Domain example.com is occupied, please retry in 45 seconds.").data)
    (("example.com").data) (("45").data) (PyFloat.finite 45 0) (PyVal.obj 0) 3
    (by decide) (by decide)

/-! ## C5: matching message with non-numeric seconds -/

/-- C5: when the regex matches but the captured seconds text does not
parse as a float, `from_message` still returns a directive (no exception
escapes), with the default `retry_seconds = 300.0`. -/
theorem claim_C5 (m g1 g2 : List Char)
    (hm : domainOccupiedRegexMatch m = some (g1, g2))
    (hv : pyFloat g2 = none) :
    DomainOccupied.from_message m = some { domain := g1, retry_seconds := PyFloat.finite 300 0 } := by
  rw [DomainOccupied.from_message, hm]
  simp only [hv]
  have h : DomainOccupied.DEFAULT_RETRY_SECONDS = PyFloat.finite 300 0 := by decide
  rw [h]

/-- Witness for C5: a matching message whose seconds text is `bar`. -/
theorem claim_C5_witness :
    DomainOccupied.from_message (("domain foo is occupied, please retry in bar seconds").data) =
      some { domain := ("foo").data, retry_seconds := PyFloat.finite 300 0 } :=
  claim_C5 (("domain foo is occupied, please retry in bar seconds").data)
    (("foo").data) (("bar").data) (by decide) (by decide)

/-! ## C4: `retry_seconds` shape, and the doubly-negative case -/

/-- C4: `retry_seconds` is the directive's value when a directive was
derived and `0.0` otherwise; and a message that neither matches the
regex nor normalizes into the retriable set yields `retriable = false`
and `retry_seconds = 0.0`. -/
theorem claim_C4 (q : PyVal) (m : List Char) (r : Int) :
    ((_QueryError.make q m r).retry_seconds =
      match DomainOccupied.from_message m with
      | some d => d.retry_seconds
      | none => PyFloat.finite 0 0) ∧
    (DomainOccupied.from_message m = none →
      pyLowerStrip m ∉ RETRIABLE_MESSAGES →
      (_QueryError.make q m r).retriable = false ∧
      (_QueryError.make q m r).retry_seconds = PyFloat.finite 0 0) := by
  refine ⟨make_retry_seconds q m r, fun h1 h2 => ⟨?_, ?_⟩⟩
  · rw [make_retriable, h1]
    simp [h2]
  · rw [make_retry_seconds, h1]

/-- Witness for C4 at the spec's non-matching scenario message. -/
theorem claim_C4_witness :
    (_QueryError.make (PyVal.obj 0) (("Some unrelated upstream glitch").data) 3).retriable = false ∧
    (_QueryError.make (PyVal.obj 0) (("Some unrelated upstream glitch").data) 3).retry_seconds = PyFloat.finite 0 0 :=
  (claim_C4 (PyVal.obj 0) (("Some unrelated upstream glitch").data) 3).2
    (by decide) (by decide)

/-! ## C10: nonzero `retry_seconds` only for retriable failures -/

/-- C10: whenever the reported `retry_seconds` of a constructed
`_QueryError` is not `0.0`, the failure is classified retriable. -/
theorem claim_C10 (q : PyVal) (m : List Char) (r : Int)
    (h : (_QueryError.make q m r).retry_seconds ≠ PyFloat.finite 0 0) :
    (_QueryError.make q m r).retriable = true := by
  rw [make_retriable]
  rw [make_retry_seconds] at h
  cases hfm : DomainOccupied.from_message m with
  | none => exact absurd (by rw [hfm]) h
  | some d => simp [hfm]

/-- Witness for C10: a domain-occupied message with a 45-second delay. -/
theorem claim_C10_witness :
    (_QueryError.make (PyVal.obj 0) (("Domain example.com is occupied, please retry in 45 seconds.").data) 0).retriable = true :=
  claim_C10 (PyVal.obj 0) (("Domain example.com is occupied, please retry in 45 seconds.").data) 0
    (by decide)

/-! ## C7: `from_query_result` fails loudly on missing keys -/

/-- A dict lookup on an absent key is a `KeyError` on that key. -/
theorem pyDictGet_absent (d : List (List Char × PyVal)) (k : List Char)
    (h : ∀ p ∈ d, p.1 ≠ k) : pyDictGet d k = Except.error (PyErr.keyError k) := by
  rw [pyDictGet]
  have hf : d.find? (fun p => decide (p.1 = k)) = none := by
    rw [List.find?_eq_none]
    intro p hp
    simp [h p hp]
  rw [hf]

/-- The only error a dict lookup produces is a `KeyError` on its key. -/
theorem pyDictGet_error (d : List (List Char × PyVal)) (k : List Char) (e : PyErr)
    (h : pyDictGet d k = Except.error e) : e = PyErr.keyError k := by
  rw [pyDictGet] at h
  cases hf : d.find? (fun p => decide (p.1 = k)) with
  | some p =>
    rw [hf] at h
    exact Except.noConfusion h
  | none =>
    rw [hf] at h
    injection h with h1
    exact h1.symm

/-- C7: `from_query_result` on a mapping that lacks the `query` key or the
`error` key fails with a `KeyError`; when both keys are present (with a
string error message), it returns a `_QueryError` carrying the mapping's
`query` value as `query`, its `error` value as `message`, and the supplied
`max_retries`. -/
theorem claim_C7 :
    (∀ (qr : List (List Char × PyVal)) (mr : Int),
       ((∀ p ∈ qr, p.1 ≠ ("query").data) ∨ (∀ p ∈ qr, p.1 ≠ ("error").data)) →
       ∃ k, _QueryError.from_query_result qr mr = Except.error (PyErr.keyError k)) ∧
    (∀ (qr : List (List Char × PyVal)) (mr : Int) (q : PyVal) (m : List Char),
       pyDictGet qr (("query").data) = Except.ok q →
       pyDictGet qr (("error").data) = Except.ok (PyVal.str m) →
       _QueryError.from_query_result qr mr = Except.ok (_QueryError.make q m mr) ∧
       (_QueryError.make q m mr).query = q ∧
       (_QueryError.make q m mr).message = m ∧
       (_QueryError.make q m mr).max_retries = mr) := by
  constructor
  · intro qr mr h
    rcases h with h | h
    · refine ⟨("query").data, ?_⟩
      rw [_QueryError.from_query_result, pyDictGet_absent qr _ h]
    · cases hq : pyDictGet qr (("query").data) with
      | error e =>
        refine ⟨("query").data, ?_⟩
        rw [_QueryError.from_query_result, hq, pyDictGet_error qr _ e hq]
      | ok q =>
        refine ⟨("error").data, ?_⟩
        rw [_QueryError.from_query_result, hq, pyDictGet_absent qr _ h]
  · intro qr mr q m hq he
    rw [_QueryError.from_query_result, hq, he]
    exact ⟨rfl, rfl, rfl, rfl⟩

/-- Witness for C7: a mapping missing `error` fails with a `KeyError`; a
complete mapping produces the expected `_QueryError`. -/
theorem claim_C7_witness :
    (∃ k, _QueryError.from_query_result [((("query").data), PyVal.obj 0)] 3 =
       Except.error (PyErr.keyError k)) ∧
    _QueryError.from_query_result
        [((("query").data), PyVal.obj 0), ((("error").data), PyVal.str (("boom").data))] 3 =
      Except.ok (_QueryError.make (PyVal.obj 0) (("boom").data) 3) :=
  ⟨claim_C7.1 [((("query").data), PyVal.obj 0)] 3 (Or.inr (by decide)),
   (claim_C7.2 [((("query").data), PyVal.obj 0), ((("error").data), PyVal.str (("boom").data))]
     3 (PyVal.obj 0) (("boom").data) rfl rfl).1⟩

/-! ## C8: `RequestError` requires `response_content` -/

/-- Searching an association list whose prefix misses the key finds the
first entry with that key. -/
theorem find?_key_append (k : List Char) (v : PyVal) (kw1 kw2 : List (List Char × PyVal))
    (h : ∀ p ∈ kw1, p.1 ≠ k) :
    (kw1 ++ (k, v) :: kw2).find? (fun p => decide (p.1 = k)) = some (k, v) := by
  induction kw1 with
  | nil => simp [List.find?_cons]
  | cons a t ih =>
    rw [List.cons_append, List.find?_cons]
    have ha : (decide (a.1 = k)) = false := by
      simp only [decide_eq_false_iff_not]
      exact h a (List.mem_cons_self a t)
    rw [ha]
    exact ih (fun p hp => h p (List.mem_cons_of_mem a hp))

/-- C8: constructing a `RequestError` without `response_content` among the
keyword arguments fails with a `KeyError`; with it supplied, construction
succeeds and the `response_content` accessor returns the supplied body
unchanged. -/
theorem claim_C8 :
    (∀ (args : List PyVal) (kwargs : List (List Char × PyVal)),
       (∀ p ∈ kwargs, p.1 ≠ ("response_content").data) →
       RequestError.make args kwargs = Except.error (PyErr.keyError (("response_content").data))) ∧
    (∀ (args : List PyVal) (kw1 kw2 : List (List Char × PyVal)) (v : PyVal),
       (∀ p ∈ kw1, p.1 ≠ ("response_content").data) →
       ∃ re, RequestError.make args (kw1 ++ ((("response_content").data), v) :: kw2) = Except.ok re ∧
         re.response_content = v) := by
  constructor
  · intro args kwargs h
    rw [RequestError.make, pyDictPop]
    have hf : kwargs.find? (fun p => decide (p.1 = ("response_content").data)) = none := by
      rw [List.find?_eq_none]
      intro p hp
      simp [h p hp]
    rw [hf]
  · intro args kw1 kw2 v h
    rw [RequestError.make, pyDictPop, find?_key_append (("response_content").data) v kw1 kw2 h]
    exact ⟨_, rfl, rfl⟩

/-- Witness for C8: empty kwargs fail; kwargs holding a body succeed and
expose it unchanged. -/
theorem claim_C8_witness :
    RequestError.make [] [] = Except.error (PyErr.keyError (("response_content").data)) ∧
    ∃ re, RequestError.make [] [((("response_content").data), PyVal.obj 7)] = Except.ok re ∧
      re.response_content = PyVal.obj 7 :=
  ⟨claim_C8.1 [] [] (by decide),
   claim_C8.2 [] [] [] (PyVal.obj 7) (by decide)⟩

/-! ## C1: the `retriable` classification -/

/-- Lower-casing fixes whitespace characters. -/
theorem toLower_of_isWhitespace {c : Char} (h : c.isWhitespace = true) : c.toLower = c := by
  have h4 : c = ' ' ∨ c = '\t' ∨ c = '\r' ∨ c = '\n' := by
    simpa [Char.isWhitespace, or_assoc] using h
  rcases h4 with h | h | h | h <;> subst h <;> decide

/-- Dropping whitespace removes a fully-whitespace prefix. -/
theorem dropWhile_ws_append (w t : List Char) (h : ∀ c ∈ w, c.isWhitespace = true) :
    (w ++ t).dropWhile Char.isWhitespace = t.dropWhile Char.isWhitespace := by
  induction w with
  | nil => rfl
  | cons a w ih =>
    rw [List.cons_append, List.dropWhile_cons, if_pos (h a (List.mem_cons_self a w))]
    exact ih (fun c hc => h c (List.mem_cons_of_mem a hc))

/-- Dropping whitespace is the identity when the head is not whitespace. -/
theorem dropWhile_of_head_not (c : Char) (t : List Char) (h : c.isWhitespace = false) :
    (c :: t).dropWhile Char.isWhitespace = c :: t := by
  rw [List.dropWhile_cons, if_neg]
  simp [h]

/-- A nonempty string whose first and last characters are not whitespace. -/
def noEdgeWS (l : List Char) : Bool :=
  (match l.head? with
   | some c => !c.isWhitespace
   | none => false) &&
  (match l.getLast? with
   | some c => !c.isWhitespace
   | none => false)

/-- Unpacking `noEdgeWS`. -/
theorem noEdgeWS_spec (L : List Char) (h : noEdgeWS L = true) :
    ∃ c t, L = c :: t ∧ c.isWhitespace = false ∧
      ∃ d, L.getLast? = some d ∧ d.isWhitespace = false := by
  cases L with
  | nil => exact absurd h (by decide)
  | cons c t =>
    rw [noEdgeWS, List.head?_cons, Bool.and_eq_true] at h
    obtain ⟨hc, hd⟩ := h
    refine ⟨c, t, rfl, by simpa using hc, ?_⟩
    cases hg : (c :: t).getLast? with
    | none => rw [hg] at hd; exact absurd hd (by decide)
    | some d =>
      rw [hg] at hd
      exact ⟨d, rfl, by simpa using hd⟩

/-- Stripping whitespace around a string with no edge whitespace gives the
string back. -/
theorem pyStrip_sandwich (w1 L w2 : List Char)
    (h1 : ∀ c ∈ w1, c.isWhitespace = true) (h2 : ∀ c ∈ w2, c.isWhitespace = true)
    (hL : noEdgeWS L = true) : pyStrip (w1 ++ L ++ w2) = L := by
  obtain ⟨c, t, hLct, hc, d, hd, hdw⟩ := noEdgeWS_spec L hL
  have hstep1 : (w1 ++ L ++ w2).dropWhile Char.isWhitespace = L ++ w2 := by
    rw [List.append_assoc, dropWhile_ws_append w1 (L ++ w2) h1, hLct, List.cons_append,
      dropWhile_of_head_not _ _ hc, ← List.cons_append, ← hLct]
  have hrev : List.dropWhile Char.isWhitespace L.reverse = L.reverse := by
    have hrevhead : L.reverse.head? = some d := by rw [List.head?_reverse]; exact hd
    cases hr : L.reverse with
    | nil => rw [hr] at hrevhead; exact Option.noConfusion hrevhead
    | cons x xs =>
      rw [hr, List.head?_cons] at hrevhead
      injection hrevhead with hx
      exact dropWhile_of_head_not x xs (by rw [hx]; exact hdw)
  rw [pyStrip, hstep1, List.reverse_append,
    dropWhile_ws_append _ _ (fun x hx => h2 x (List.mem_reverse.mp hx)), hrev,
    List.reverse_reverse]

/-- Every normalized retriable-reason literal is nonempty with no edge
whitespace. -/
theorem RM_noEdge : RETRIABLE_MESSAGES.all noEdgeWS = true := by decide

/-- The retriable-reason literals of the specification, already normalized
(lower-cased, trimmed): the 11 strings of §6. -/
def specRetriableLiterals : List (List Char) :=
  [("query timed out").data,
   ("downloader error: no response (network5)").data,
   ("downloader error: http50").data,
   ("downloader error: globaltimeouterror").data,
   ("proxy error: banned").data,
   ("proxy error: internal_error").data,
   ("proxy error: nxdomain").data,
   ("proxy error: timeout").data,
   ("proxy error: ssl_tunnel_error").data,
   ("proxy error: msgtimeout").data,
   ("proxy error: econnrefused").data]

/-- C1: the source's normalized retriable set is exactly the spec's 11
literals; `retriable` is true iff a directive was derived or the
lower-cased, trimmed message is one of them; and every literal is
accepted under arbitrary casing and arbitrary leading/trailing
whitespace. -/
theorem claim_C1 :
    RETRIABLE_MESSAGES = specRetriableLiterals ∧
    (∀ (q : PyVal) (m : List Char) (r : Int),
       (_QueryError.make q m r).retriable = true ↔
         ((DomainOccupied.from_message m).isSome = true ∨
           pyLowerStrip m ∈ RETRIABLE_MESSAGES)) ∧
    (∀ (q : PyVal) (r : Int) (w1 v w2 : List Char),
       (∀ c ∈ w1, c.isWhitespace = true) → (∀ c ∈ w2, c.isWhitespace = true) →
       pyLower v ∈ RETRIABLE_MESSAGES →
       (_QueryError.make q (w1 ++ v ++ w2) r).retriable = true) := by
  refine ⟨by decide, fun q m r => ?_, fun q r w1 v w2 hw1 hw2 hv => ?_⟩
  · rw [make_retriable]
    simp
  · rw [make_retriable]
    have hmap1 : w1.map Char.toLower = w1 := by
      rw [List.map_congr_left (fun c hc => toLower_of_isWhitespace (hw1 c hc)), List.map_id']
    have hmap2 : w2.map Char.toLower = w2 := by
      rw [List.map_congr_left (fun c hc => toLower_of_isWhitespace (hw2 c hc)), List.map_id']
    have hlower : pyLower (w1 ++ v ++ w2) = w1 ++ pyLower v ++ w2 := by
      rw [pyLower, List.map_append, List.map_append, hmap1, hmap2, pyLower]
    have hnorm : pyLowerStrip (w1 ++ v ++ w2) = pyLower v := by
      rw [pyLowerStrip, hlower]
      exact pyStrip_sandwich w1 (pyLower v) w2 hw1 hw2 (List.all_eq_true.mp RM_noEdge _ hv)
    rw [hnorm, decide_eq_true hv, Bool.or_true]

/-- Witness for C1: `"  Query Timed Out\t"` is retriable. -/
theorem claim_C1_witness :
    (_QueryError.make (PyVal.obj 0)
      ((("  ").data) ++ (("Query Timed Out").data) ++ (("\t").data)) 0).retriable = true :=
  claim_C1.2.2 (PyVal.obj 0) 0 (("  ").data) (("Query Timed Out").data) (("\t").data)
    (by decide) (by decide) (by decide)

/-! ## C6: sign of `retry_seconds` -/

/-- C6 fails on the code: a domain-occupied message may carry a negative
delay, which `float` parses and the directive stores unchanged, so
`retry_seconds` can be negative. -/
theorem claim_C6_counterexample :
    DomainOccupied.from_message (("domain x is occupied, please retry in -5 seconds").data) =
      some { domain := ("x").data, retry_seconds := PyFloat.finite (-5) 0 } ∧
    PyFloat.nonneg (PyFloat.finite (-5) 0) = false := by
  constructor
  · decide
  · decide

/-- Any directive's `retry_seconds` is nonnegative unless the captured
seconds text parses to a float that is negative or NaN, in which case the
directive stores that parsed value. -/
theorem fromMessage_nonneg_cases (m : List Char) (d : DomainOccupied)
    (h : DomainOccupied.from_message m = some d) :
    d.retry_seconds.nonneg = true ∨
      ∃ g v, domainOccupiedRegexMatch m = some g ∧ pyFloat g.2 = some v ∧
        v.nonneg = false ∧ d.retry_seconds = v := by
  cases hm : domainOccupiedRegexMatch m with
  | none =>
    rw [DomainOccupied.from_message, hm] at h
    exact Option.noConfusion h
  | some g =>
    simp only [DomainOccupied.from_message, hm] at h
    cases hf : pyFloat g.2 with
    | none =>
      rw [hf] at h
      injection h with h'
      left
      rw [← h']
      exact rfl
    | some v =>
      rw [hf] at h
      injection h with h'
      cases hv : v.nonneg with
      | true =>
        left
        rw [← h']
        exact hv
      | false =>
        right
        exact ⟨g, v, rfl, hf, hv, by rw [← h']⟩

/-- C6 amended: every directive — and hence every `_QueryError` — reports a
nonnegative `retry_seconds`, except when the captured seconds text parses
to a negative or NaN float, in which case that parsed value is reported. -/
theorem claim_C6_amended :
    (∀ (m : List Char) (d : DomainOccupied),
       DomainOccupied.from_message m = some d →
       d.retry_seconds.nonneg = true ∨
         ∃ g v, domainOccupiedRegexMatch m = some g ∧ pyFloat g.2 = some v ∧
           v.nonneg = false ∧ d.retry_seconds = v) ∧
    (∀ (q : PyVal) (m : List Char) (r : Int),
       (_QueryError.make q m r).retry_seconds.nonneg = true ∨
         ∃ g v, domainOccupiedRegexMatch m = some g ∧ pyFloat g.2 = some v ∧
           v.nonneg = false ∧ (_QueryError.make q m r).retry_seconds = v) := by
  refine ⟨fromMessage_nonneg_cases, fun q m r => ?_⟩
  rw [make_retry_seconds]
  cases hm : DomainOccupied.from_message m with
  | none =>
    left
    decide
  | some d =>
    rcases fromMessage_nonneg_cases m d hm with h | ⟨g, v, h1, h2, h3, h4⟩
    · left
      exact h
    · right
      exact ⟨g, v, h1, h2, h3, h4⟩

/-- Witness for C6 at a 45-second delay message. -/
theorem claim_C6_witness :
    DomainOccupied.from_message (("Domain example.com is occupied, please retry in 45 seconds.").data) =
      some { domain := ("example.com").data, retry_seconds := PyFloat.finite 45 0 } ∧
    ((({ domain := ("example.com").data, retry_seconds := PyFloat.finite 45 0 } : DomainOccupied)).retry_seconds.nonneg = true ∨
      ∃ g v, domainOccupiedRegexMatch (("Domain example.com is occupied, please retry in 45 seconds.").data) = some g ∧
        pyFloat g.2 = some v ∧ v.nonneg = false ∧
        (({ domain := ("example.com").data, retry_seconds := PyFloat.finite 45 0 } : DomainOccupied)).retry_seconds = v) :=
  ⟨by decide,
   claim_C6_amended.1 (("Domain example.com is occupied, please retry in 45 seconds.").data)
     { domain := ("example.com").data, retry_seconds := PyFloat.finite 45 0 } (by decide)⟩

/-! ## C3: characterizing the regex match -/

/-- Combinator `tryDrops` fails exactly when the continuation fails at every
consumption length up to the bound. -/
theorem tryDrops_eq_none_iff {α : Type} (k : List Char → Option α) (s : List Char) (n : Nat) :
    tryDrops k s n = none ↔ ∀ j, j ≤ n → k (s.drop j) = none := by
  induction n with
  | zero =>
    simp only [tryDrops]
    constructor
    · intro h j hj
      have hj0 : j = 0 := Nat.le_zero.mp hj
      subst hj0
      simpa using h
    · intro h
      simpa using h 0 (Nat.le_refl 0)
  | succ n ih =>
    simp only [tryDrops]
    cases hk : k (s.drop (n + 1)) with
    | some v =>
      constructor
      · intro h
        exact Option.noConfusion h
      · intro h
        rw [h (n + 1) (Nat.le_refl _)] at hk
        exact Option.noConfusion hk
    | none =>
      rw [ih]
      constructor
      · intro h j hj
        rcases Nat.lt_or_ge j (n + 1) with h3 | h3
        · exact h j (Nat.lt_succ_iff.mp h3)
        · have hj1 : j = n + 1 := Nat.le_antisymm hj h3
          rw [hj1]
          exact hk
      · intro h j hj
        exact h j (Nat.le_succ_of_le hj)

/-- Combinator `tryDrops` succeeds with the value produced at the longest consumption
length at which the continuation succeeds. -/
theorem tryDrops_eq_some_iff {α : Type} (k : List Char → Option α) (s : List Char) (n : Nat)
    (v : α) :
    tryDrops k s n = some v ↔
      ∃ j, j ≤ n ∧ k (s.drop j) = some v ∧
        ∀ j', j < j' → j' ≤ n → k (s.drop j') = none := by
  induction n with
  | zero =>
    simp only [tryDrops]
    constructor
    · intro h
      refine ⟨0, Nat.le_refl 0, by simpa using h, fun j' h1 h2 => ?_⟩
      omega
    · rintro ⟨j, hj, hk, _⟩
      have hj0 : j = 0 := Nat.le_zero.mp hj
      subst hj0
      simpa using hk
  | succ n ih =>
    simp only [tryDrops]
    cases hk : k (s.drop (n + 1)) with
    | some w =>
      constructor
      · intro h
        injection h with h'
        subst h'
        exact ⟨n + 1, Nat.le_refl _, hk, fun j' h1 h2 => by omega⟩
      · rintro ⟨j, hj, hkj, hmax⟩
        rcases Nat.lt_or_ge j (n + 1) with h3 | h3
        · rw [hmax (n + 1) h3 (Nat.le_refl _)] at hk
          exact Option.noConfusion hk
        · have hj1 : j = n + 1 := Nat.le_antisymm hj h3
          subst hj1
          rw [hkj] at hk
          injection hk with h'
          rw [h']
    | none =>
      rw [ih]
      constructor
      · rintro ⟨j, hj, hkj, hmax⟩
        refine ⟨j, Nat.le_succ_of_le hj, hkj, fun j' h1 h2 => ?_⟩
        rcases Nat.lt_or_ge j' (n + 1) with h3 | h3
        · exact hmax j' h1 (by omega)
        · have : j' = n + 1 := by omega
          rw [this]
          exact hk
      · rintro ⟨j, hj, hkj, hmax⟩
        have hjn : j ≤ n := by
          rcases Nat.lt_or_ge j (n + 1) with h3 | h3
          · omega
          · have : j = n + 1 := by omega
            subst this
            rw [hkj] at hk
            exact Option.noConfusion hk
        exact ⟨j, hjn, hkj, fun j' h1 h2 => hmax j' h1 (by omega)⟩

/-- Combinator `tryCapture` fails exactly when the continuation fails at every capture
length from 1 up to the bound. -/
theorem tryCapture_eq_none_iff {α : Type} (k : List Char → List Char → Option α) (s : List Char)
    (n : Nat) :
    tryCapture k s n = none ↔ ∀ j, 1 ≤ j → j ≤ n → k (s.take j) (s.drop j) = none := by
  induction n with
  | zero =>
    simp only [tryCapture]
    constructor
    · intro _ j h1 h2
      omega
    · intro _
      trivial
  | succ n ih =>
    simp only [tryCapture]
    cases hk : k (s.take (n + 1)) (s.drop (n + 1)) with
    | some v =>
      constructor
      · intro h
        exact Option.noConfusion h
      · intro h
        rw [h (n + 1) (by omega) (Nat.le_refl _)] at hk
        exact Option.noConfusion hk
    | none =>
      rw [ih]
      constructor
      · intro h j h1 h2
        rcases Nat.lt_or_ge j (n + 1) with h3 | h3
        · exact h j h1 (by omega)
        · have : j = n + 1 := by omega
          rw [this]
          exact hk
      · intro h j h1 h2
        exact h j h1 (by omega)

/-- Combinator `tryCapture` succeeds with the value produced at the longest capture
length at which the continuation succeeds. -/
theorem tryCapture_eq_some_iff {α : Type} (k : List Char → List Char → Option α) (s : List Char)
    (n : Nat) (v : α) :
    tryCapture k s n = some v ↔
      ∃ j, 1 ≤ j ∧ j ≤ n ∧ k (s.take j) (s.drop j) = some v ∧
        ∀ j', j < j' → j' ≤ n → k (s.take j') (s.drop j') = none := by
  induction n with
  | zero =>
    simp only [tryCapture]
    constructor
    · intro h
      exact Option.noConfusion h
    · rintro ⟨j, h1, h2, _, _⟩
      omega
  | succ n ih =>
    simp only [tryCapture]
    cases hk : k (s.take (n + 1)) (s.drop (n + 1)) with
    | some w =>
      constructor
      · intro h
        injection h with h'
        subst h'
        exact ⟨n + 1, by omega, Nat.le_refl _, hk, fun j' h1 h2 => by omega⟩
      · rintro ⟨j, h1, h2, hkj, hmax⟩
        rcases Nat.lt_or_ge j (n + 1) with h3 | h3
        · rw [hmax (n + 1) h3 (Nat.le_refl _)] at hk
          exact Option.noConfusion hk
        · have hj1 : j = n + 1 := by omega
          subst hj1
          rw [hkj] at hk
          injection hk with h'
          rw [h']
    | none =>
      rw [ih]
      constructor
      · rintro ⟨j, h1, h2, hkj, hmax⟩
        refine ⟨j, h1, by omega, hkj, fun j' hj1 hj2 => ?_⟩
        rcases Nat.lt_or_ge j' (n + 1) with h3 | h3
        · exact hmax j' hj1 (by omega)
        · have : j' = n + 1 := by omega
          rw [this]
          exact hk
      · rintro ⟨j, h1, h2, hkj, hmax⟩
        have hjn : j ≤ n := by
          rcases Nat.lt_or_ge j (n + 1) with h3 | h3
          · omega
          · have : j = n + 1 := by omega
            subst this
            rw [hkj] at hk
            exact Option.noConfusion hk
        exact ⟨j, h1, hjn, hkj, fun j' hj1 hj2 => hmax j' hj1 (by omega)⟩

/-- Combinator `tryDrops` succeeds iff the continuation succeeds at some consumption
length within the bound. -/
theorem tryDrops_isSome_iff {α : Type} (k : List Char → Option α) (s : List Char) (n : Nat) :
    (tryDrops k s n).isSome = true ↔ ∃ j, j ≤ n ∧ (k (s.drop j)).isSome = true := by
  constructor
  · intro h
    cases ho : tryDrops k s n with
    | none =>
      rw [ho] at h
      exact Bool.noConfusion h
    | some v =>
      obtain ⟨j, h1, h2, _⟩ := (tryDrops_eq_some_iff k s n v).mp ho
      exact ⟨j, h1, by rw [h2]; rfl⟩
  · rintro ⟨j, h1, h2⟩
    cases ho : tryDrops k s n with
    | some v => rfl
    | none =>
      rw [(tryDrops_eq_none_iff k s n).mp ho j h1] at h2
      exact Bool.noConfusion h2

/-- Combinator `tryCapture` succeeds iff the continuation succeeds at some capture
length from 1 up to the bound. -/
theorem tryCapture_isSome_iff {α : Type} (k : List Char → List Char → Option α) (s : List Char)
    (n : Nat) :
    (tryCapture k s n).isSome = true ↔
      ∃ j, 1 ≤ j ∧ j ≤ n ∧ (k (s.take j) (s.drop j)).isSome = true := by
  constructor
  · intro h
    cases ho : tryCapture k s n with
    | none =>
      rw [ho] at h
      exact Bool.noConfusion h
    | some v =>
      obtain ⟨j, h1, h2, h3, _⟩ := (tryCapture_eq_some_iff k s n v).mp ho
      exact ⟨j, h1, h2, by rw [h3]; rfl⟩
  · rintro ⟨j, h1, h2, h3⟩
    cases ho : tryCapture k s n with
    | some v => rfl
    | none =>
      rw [(tryCapture_eq_none_iff k s n).mp ho j h1 h2] at h3
      exact Bool.noConfusion h3

/-- Matching `stripLitCI` succeeds with remainder `r` exactly when the input splits
as a prefix lower-casing to the literal, followed by `r`. -/
theorem stripLitCI_eq_some_iff (t : List Char) :
    ∀ s r : List Char,
      stripLitCI t s = some r ↔ ∃ pre, s = pre ++ r ∧ pre.map Char.toLower = t := by
  induction t with
  | nil =>
    intro s r
    simp only [stripLitCI]
    constructor
    · intro h
      injection h with h'
      exact ⟨[], by rw [h']; rfl, rfl⟩
    · rintro ⟨pre, hs, hm⟩
      have hp : pre = [] := List.map_eq_nil_iff.mp hm
      subst hp
      rw [hs]
      rfl
  | cons a ts ih =>
    intro s r
    cases s with
    | nil =>
      simp only [stripLitCI]
      constructor
      · intro h
        exact Option.noConfusion h
      · rintro ⟨pre, hs, hm⟩
        cases pre with
        | nil => simp at hm
        | cons x xs => simp at hs
    | cons c cs =>
      simp only [stripLitCI]
      by_cases hc : c.toLower = a
      · rw [if_pos hc, ih cs r]
        constructor
        · rintro ⟨pre, hcs, hm⟩
          refine ⟨c :: pre, by rw [List.cons_append, hcs], ?_⟩
          rw [List.map_cons, hm, hc]
        · rintro ⟨pre, hs, hm⟩
          cases pre with
          | nil => simp at hm
          | cons x xs =>
            rw [List.cons_append] at hs
            injection hs with h1 h2
            rw [List.map_cons] at hm
            injection hm with h3 h4
            exact ⟨xs, h2, h4⟩
      · rw [if_neg hc]
        constructor
        · intro h
          exact Option.noConfusion h
        · rintro ⟨pre, hs, hm⟩
          cases pre with
          | nil => simp at hm
          | cons x xs =>
            rw [List.cons_append] at hs
            injection hs with h1 h2
            rw [List.map_cons] at hm
            injection hm with h3 h4
            subst h1
            exact absurd h3 hc

/-- Matching `stripLitCI` succeeds exactly when some prefix lower-cases to the
literal. -/
theorem stripLitCI_isSome_iff (t s : List Char) :
    (stripLitCI t s).isSome = true ↔
      ∃ pre rest, s = pre ++ rest ∧ pre.map Char.toLower = t := by
  constructor
  · intro h
    cases ho : stripLitCI t s with
    | none =>
      rw [ho] at h
      exact Bool.noConfusion h
    | some r =>
      obtain ⟨pre, h1, h2⟩ := (stripLitCI_eq_some_iff t s r).mp ho
      exact ⟨pre, r, h1, h2⟩
  · rintro ⟨pre, rest, h1, h2⟩
    rw [(stripLitCI_eq_some_iff t s rest).mpr ⟨pre, h1, h2⟩]
    rfl

/-- Bounded consumption lengths are exactly those whose consumed prefix is
newline-free. -/
theorem le_nlFreePrefixLen_iff (s : List Char) :
    ∀ j : Nat, j ≤ nlFreePrefixLen s ↔ j ≤ s.length ∧ '\n' ∉ s.take j := by
  induction s with
  | nil =>
    intro j
    simp [nlFreePrefixLen]
  | cons c cs ih =>
    intro j
    by_cases hc : c = '\n'
    · subst hc
      rw [nlFreePrefixLen, if_pos rfl]
      cases j with
      | zero => simp
      | succ j =>
        simp only [List.take_succ_cons, List.length_cons]
        constructor
        · intro h
          omega
        · rintro ⟨h1, h2⟩
          exact absurd (List.mem_cons_self _ _) h2
    · rw [nlFreePrefixLen, if_neg hc]
      cases j with
      | zero => simp
      | succ j =>
        rw [Nat.succ_le_succ_iff, ih j]
        simp only [List.take_succ_cons, List.length_cons, List.mem_cons, Nat.succ_le_succ_iff]
        constructor
        · rintro ⟨h1, h2⟩
          exact ⟨h1, fun hx => hx.elim (fun he => hc he.symm) h2⟩
        · rintro ⟨h1, h2⟩
          exact ⟨h1, fun hx => h2 (Or.inr hx)⟩

/-- The newline-free prefix never exceeds the string. -/
theorem nlFreePrefixLen_le (s : List Char) : nlFreePrefixLen s ≤ s.length :=
  ((le_nlFreePrefixLen_iff s (nlFreePrefixLen s)).mp (Nat.le_refl _)).1

/-- Step `docStep3` succeeds iff the remainder splits as a nonempty newline-free
group 2 followed by the ` seconds` literal (case-insensitively) and
arbitrary trailing text. -/
theorem docStep3_isSome_iff (g1 r2 : List Char) :
    (docStep3 g1 r2).isSome = true ↔
      ∃ s w rest, r2 = s ++ (w ++ rest) ∧ pyLower w = LIT3 ∧ '\n' ∉ s ∧ s ≠ [] := by
  rw [docStep3, tryCapture_isSome_iff]
  constructor
  · rintro ⟨j, h1, h2, h3⟩
    simp only [docStep3Body] at h3
    cases hst : stripLitCI LIT3 (r2.drop j) with
    | none =>
      rw [hst] at h3
      exact Bool.noConfusion h3
    | some r3 =>
      obtain ⟨w, hw1, hw2⟩ := (stripLitCI_eq_some_iff LIT3 (r2.drop j) r3).mp hst
      obtain ⟨hlen, hnl⟩ := (le_nlFreePrefixLen_iff r2 j).mp h2
      refine ⟨r2.take j, w, r3, ?_, hw2, hnl, ?_⟩
      · rw [← hw1, List.take_append_drop]
      · intro hnil
        rcases List.take_eq_nil_iff.mp hnil with h | h
        · omega
        · rw [h] at hlen
          simp at hlen
          omega
  · rintro ⟨s, w, rest, hr2, hw, hnl, hne⟩
    have hns : 0 < s.length := List.length_pos.mpr hne
    refine ⟨s.length, by omega, ?_, ?_⟩
    · rw [le_nlFreePrefixLen_iff]
      refine ⟨by rw [hr2, List.length_append]; omega, ?_⟩
      rw [hr2, List.take_left]
      exact hnl
    · simp only [docStep3Body]
      rw [hr2, List.drop_left,
        (stripLitCI_eq_some_iff LIT3 (w ++ rest) rest).mpr ⟨w, rfl, hw⟩]
      rfl

/-- Step `docStep2` succeeds iff the remainder splits as a nonempty newline-free
group 1, the ` is occupied, please retry in ` literal, a nonempty
newline-free group 2, the ` seconds` literal, and arbitrary trailing
text. -/
theorem docStep2_isSome_iff (r1 : List Char) :
    (docStep2 r1).isSome = true ↔
      ∃ n o s w rest, r1 = n ++ (o ++ (s ++ (w ++ rest))) ∧
        pyLower o = LIT2 ∧ pyLower w = LIT3 ∧ '\n' ∉ n ∧ '\n' ∉ s ∧ n ≠ [] ∧ s ≠ [] := by
  rw [docStep2, tryCapture_isSome_iff]
  constructor
  · rintro ⟨j, h1, h2, h3⟩
    simp only [docStep2Body] at h3
    cases hst : stripLitCI LIT2 (r1.drop j) with
    | none =>
      rw [hst] at h3
      exact Bool.noConfusion h3
    | some r2 =>
      rw [hst] at h3
      obtain ⟨s, w, rest, hr2, hw, hnls, hnes⟩ := (docStep3_isSome_iff _ r2).mp h3
      obtain ⟨o, ho1, ho2⟩ := (stripLitCI_eq_some_iff LIT2 (r1.drop j) r2).mp hst
      obtain ⟨hlen, hnl⟩ := (le_nlFreePrefixLen_iff r1 j).mp h2
      refine ⟨r1.take j, o, s, w, rest, ?_, ho2, hw, hnl, hnls, ?_, hnes⟩
      · rw [← hr2, ← ho1, List.take_append_drop]
      · intro hnil
        rcases List.take_eq_nil_iff.mp hnil with h | h
        · omega
        · rw [h] at hlen
          simp at hlen
          omega
  · rintro ⟨n, o, s, w, rest, hr1, ho, hw, hnln, hnls, hnen, hnes⟩
    have hnn : 0 < n.length := List.length_pos.mpr hnen
    refine ⟨n.length, by omega, ?_, ?_⟩
    · rw [le_nlFreePrefixLen_iff]
      refine ⟨by rw [hr1, List.length_append]; omega, ?_⟩
      rw [hr1, List.take_left]
      exact hnln
    · simp only [docStep2Body]
      rw [hr1, List.drop_left,
        (stripLitCI_eq_some_iff LIT2 (o ++ (s ++ (w ++ rest))) (s ++ (w ++ rest))).mpr ⟨o, rfl, ho⟩]
      exact (docStep3_isSome_iff _ _).mpr ⟨s, w, rest, rfl, hw, hnls, hnes⟩

/-- Step `docStep1` succeeds iff the suffix starts with the `domain ` literal
(case-insensitively) followed by a full template tail. -/
theorem docStep1_isSome_iff (s1 : List Char) :
    (docStep1 s1).isSome = true ↔
      ∃ d n o s w rest, s1 = d ++ (n ++ (o ++ (s ++ (w ++ rest)))) ∧
        pyLower d = LIT1 ∧ pyLower o = LIT2 ∧ pyLower w = LIT3 ∧
        '\n' ∉ n ∧ '\n' ∉ s ∧ n ≠ [] ∧ s ≠ [] := by
  constructor
  · intro h
    rw [docStep1] at h
    cases hst : stripLitCI LIT1 s1 with
    | none =>
      rw [hst] at h
      exact Bool.noConfusion h
    | some r1 =>
      rw [hst] at h
      obtain ⟨n, o, s, w, rest, hr1, ho, hw, hnln, hnls, hnen, hnes⟩ :=
        (docStep2_isSome_iff r1).mp h
      obtain ⟨d, hd1, hd2⟩ := (stripLitCI_eq_some_iff LIT1 s1 r1).mp hst
      exact ⟨d, n, o, s, w, rest, by rw [hd1, hr1], hd2, ho, hw, hnln, hnls, hnen, hnes⟩
  · rintro ⟨d, n, o, s, w, rest, hs1, hd, ho, hw, hnln, hnls, hnen, hnes⟩
    rw [docStep1,
      (stripLitCI_eq_some_iff LIT1 s1 (n ++ (o ++ (s ++ (w ++ rest))))).mpr ⟨d, hs1, hd⟩]
    exact (docStep2_isSome_iff _).mpr ⟨n, o, s, w, rest, rfl, ho, hw, hnln, hnls, hnen, hnes⟩

/-- A decomposition of `m` witnessing a match of the domain-occupied
template with prefix `p` and captures `n` (group 1, the domain) and `s`
(group 2, the seconds): the three literal tokens appear case-insensitively
in order, the prefix and both captures are newline-free, and both
captures are nonempty. -/
def ValidDecompP (m p n s : List Char) : Prop :=
  ∃ d o w rest, m = p ++ (d ++ (n ++ (o ++ (s ++ (w ++ rest))))) ∧
    pyLower d = LIT1 ∧ pyLower o = LIT2 ∧ pyLower w = LIT3 ∧
    '\n' ∉ p ∧ '\n' ∉ n ∧ '\n' ∉ s ∧ n ≠ [] ∧ s ≠ []

/-- The regex matches exactly the strings admitting a valid decomposition. -/
theorem regexMatch_isSome_iff (m : List Char) :
    (domainOccupiedRegexMatch m).isSome = true ↔ ∃ p n s, ValidDecompP m p n s := by
  rw [domainOccupiedRegexMatch, tryDrops_isSome_iff]
  constructor
  · rintro ⟨j, h1, h2⟩
    obtain ⟨d, n, o, s, w, rest, hdec, hd, ho, hw, hnln, hnls, hnen, hnes⟩ :=
      (docStep1_isSome_iff _).mp h2
    obtain ⟨hlen, hnl⟩ := (le_nlFreePrefixLen_iff m j).mp h1
    exact ⟨m.take j, n, s, d, o, w, rest, by rw [← hdec, List.take_append_drop],
      hd, ho, hw, hnl, hnln, hnls, hnen, hnes⟩
  · rintro ⟨p, n, s, d, o, w, rest, hdec, hd, ho, hw, hnlp, hnln, hnls, hnen, hnes⟩
    refine ⟨p.length, ?_, ?_⟩
    · rw [le_nlFreePrefixLen_iff]
      refine ⟨by rw [hdec, List.length_append]; omega, ?_⟩
      rw [hdec, List.take_left]
      exact hnlp
    · rw [hdec, List.drop_left]
      exact (docStep1_isSome_iff _).mpr ⟨d, n, o, s, w, rest, rfl, hd, ho, hw,
        hnln, hnls, hnen, hnes⟩

/-- Parsing `from_message` returns a directive iff the regex matches. -/
theorem from_message_isSome_eq (m : List Char) :
    (DomainOccupied.from_message m).isSome = (domainOccupiedRegexMatch m).isSome := by
  rw [DomainOccupied.from_message]
  cases h : domainOccupiedRegexMatch m with
  | none => rfl
  | some g => rfl

/-- The part of the input consumed by a literal token is determined: any
decomposition whose prefix lower-cases to the literal has the remainder
returned by `stripLitCI`. -/
theorem stripLitCI_unique {t x r d tail : List Char}
    (hst : stripLitCI t x = some r) (hx : x = d ++ tail) (hd : d.map Char.toLower = t) :
    tail = r := by
  obtain ⟨pre, h1, h2⟩ := (stripLitCI_eq_some_iff t x r).mp hst
  have hlen : pre.length = d.length := by
    have l1 : pre.length = t.length := by rw [← h2, List.length_map]
    have l2 : d.length = t.length := by rw [← hd, List.length_map]
    omega
  exact ((List.append_inj (h1.symm.trans hx) hlen).2).symm

/-- A valid decomposition makes the tail of the regex succeed right after
its prefix. -/
theorem validDecompP_step1 {m p n s : List Char} (h : ValidDecompP m p n s) :
    p.length ≤ nlFreePrefixLen m ∧ (docStep1 (m.drop p.length)).isSome = true := by
  obtain ⟨d, o, w, rest, hdec, hd, ho, hw, hnlp, hnln, hnls, hnen, hnes⟩ := h
  constructor
  · rw [le_nlFreePrefixLen_iff]
    refine ⟨by rw [hdec, List.length_append]; omega, ?_⟩
    rw [hdec, List.take_left]
    exact hnlp
  · rw [hdec, List.drop_left]
    exact (docStep1_isSome_iff _).mpr ⟨d, n, o, s, w, rest, rfl, hd, ho, hw,
      hnln, hnls, hnen, hnes⟩

/-- Greedy backtracking: a successful match returns the captures of the
valid decomposition with the longest prefix, then the longest group 1,
then the longest group 2. -/
theorem regexMatch_greedy (m n s : List Char)
    (h : domainOccupiedRegexMatch m = some (n, s)) :
    ∃ p, ValidDecompP m p n s ∧
      (∀ p' n' s', ValidDecompP m p' n' s' → p'.length ≤ p.length) ∧
      (∀ n' s', ValidDecompP m p n' s' → n'.length ≤ n.length) ∧
      (∀ s', ValidDecompP m p n s' → s'.length ≤ s.length) := by
  rw [domainOccupiedRegexMatch] at h
  obtain ⟨j, hj, hk, hjmax⟩ :=
    (tryDrops_eq_some_iff docStep1 m (nlFreePrefixLen m) (n, s)).mp h
  rw [docStep1] at hk
  cases hst1 : stripLitCI LIT1 (m.drop j) with
  | none =>
    rw [hst1] at hk
    exact Option.noConfusion hk
  | some r1 =>
  rw [hst1] at hk
  simp only [docStep2] at hk
  obtain ⟨i1, hi11, hi12, hk2, hi1max⟩ :=
    (tryCapture_eq_some_iff docStep2Body r1 (nlFreePrefixLen r1) (n, s)).mp hk
  simp only [docStep2Body] at hk2
  cases hst2 : stripLitCI LIT2 (r1.drop i1) with
  | none =>
    rw [hst2] at hk2
    exact Option.noConfusion hk2
  | some r2 =>
  rw [hst2] at hk2
  simp only [docStep3] at hk2
  obtain ⟨i2, hi21, hi22, hk3, hi2max⟩ :=
    (tryCapture_eq_some_iff (docStep3Body (r1.take i1)) r2 (nlFreePrefixLen r2) (n, s)).mp hk2
  simp only [docStep3Body] at hk3
  cases hst3 : stripLitCI LIT3 (r2.drop i2) with
  | none =>
    rw [hst3] at hk3
    exact Option.noConfusion hk3
  | some r3 =>
  rw [hst3] at hk3
  injection hk3 with hk3'
  injection hk3' with hn hs
  obtain ⟨hjlen, hjnl⟩ := (le_nlFreePrefixLen_iff m j).mp hj
  obtain ⟨d, hd1, hd2⟩ := (stripLitCI_eq_some_iff LIT1 (m.drop j) r1).mp hst1
  obtain ⟨hi1len, hi1nl⟩ := (le_nlFreePrefixLen_iff r1 i1).mp hi12
  obtain ⟨o, ho1, ho2⟩ := (stripLitCI_eq_some_iff LIT2 (r1.drop i1) r2).mp hst2
  obtain ⟨hi2len, hi2nl⟩ := (le_nlFreePrefixLen_iff r2 i2).mp hi22
  obtain ⟨w, hw1, hw2⟩ := (stripLitCI_eq_some_iff LIT3 (r2.drop i2) r3).mp hst3
  have hplen : (m.take j).length = j := by
    rw [List.length_take]
    omega
  have hni1 : n.length = i1 := by
    rw [← hn, List.length_take]
    have := nlFreePrefixLen_le r1
    omega
  have hsi2 : s.length = i2 := by
    rw [← hs, List.length_take]
    have := nlFreePrefixLen_le r2
    omega
  have e2 : r2 = s ++ (w ++ r3) := by
    rw [← hs, ← hw1, List.take_append_drop]
  have e1 : r1 = n ++ (o ++ (s ++ (w ++ r3))) := by
    rw [← e2, ← hn, ← ho1, List.take_append_drop]
  have e0 : m = m.take j ++ (d ++ (n ++ (o ++ (s ++ (w ++ r3))))) := by
    rw [← e1, ← hd1, List.take_append_drop]
  have hnne : n ≠ [] := by
    intro hnil
    rw [hnil] at hni1
    simp at hni1
    omega
  have hsne : s ≠ [] := by
    intro hnil
    rw [hnil] at hsi2
    simp at hsi2
    omega
  have hnnl : '\n' ∉ n := by
    rw [← hn]
    exact hi1nl
  have hsnl : '\n' ∉ s := by
    rw [← hs]
    exact hi2nl
  refine ⟨m.take j, ⟨d, o, w, r3, e0, hd2, ho2, hw2, hjnl, hnnl, hsnl, hnne, hsne⟩,
    ?_, ?_, ?_⟩
  · intro p' n' s' hvd
    obtain ⟨h1', h2'⟩ := validDecompP_step1 hvd
    by_contra hgt
    push_neg at hgt
    rw [hplen] at hgt
    rw [hjmax p'.length hgt h1'] at h2'
    exact Bool.noConfusion h2'
  · intro n' s' hvd
    obtain ⟨d', o', w', rest', hdec', hd', ho', hw', hnlp', hnln', hnls', hnen', hnes'⟩ := hvd
    have hdrop : m.drop j = d' ++ (n' ++ (o' ++ (s' ++ (w' ++ rest')))) := by
      conv_lhs => rw [hdec']
      exact List.drop_left' hplen
    have hr1eq : n' ++ (o' ++ (s' ++ (w' ++ rest'))) = r1 :=
      stripLitCI_unique hst1 hdrop hd'
    have hn'len : n'.length ≤ nlFreePrefixLen r1 := by
      rw [le_nlFreePrefixLen_iff]
      refine ⟨by rw [← hr1eq, List.length_append]; omega, ?_⟩
      rw [← hr1eq, List.take_left]
      exact hnln'
    have hbody : (docStep2Body (r1.take n'.length) (r1.drop n'.length)).isSome = true := by
      simp only [docStep2Body]
      rw [← hr1eq, List.drop_left,
        (stripLitCI_eq_some_iff LIT2 (o' ++ (s' ++ (w' ++ rest')))
          (s' ++ (w' ++ rest'))).mpr ⟨o', rfl, ho'⟩]
      exact (docStep3_isSome_iff _ _).mpr ⟨s', w', rest', rfl, hw', hnls', hnes'⟩
    by_contra hgt
    push_neg at hgt
    rw [hni1] at hgt
    rw [hi1max n'.length hgt hn'len] at hbody
    exact Bool.noConfusion hbody
  · intro s' hvd
    obtain ⟨d', o', w', rest', hdec', hd', ho', hw', hnlp', hnln', hnls', hnen', hnes'⟩ := hvd
    have hdrop : m.drop j = d' ++ (n ++ (o' ++ (s' ++ (w' ++ rest')))) := by
      conv_lhs => rw [hdec']
      exact List.drop_left' hplen
    have hr1eq : n ++ (o' ++ (s' ++ (w' ++ rest'))) = r1 :=
      stripLitCI_unique hst1 hdrop hd'
    have hdrop2 : r1.drop i1 = o' ++ (s' ++ (w' ++ rest')) := by
      conv_lhs => rw [← hr1eq]
      exact List.drop_left' hni1
    have hr2eq : s' ++ (w' ++ rest') = r2 :=
      stripLitCI_unique hst2 hdrop2 ho'
    have hs'len : s'.length ≤ nlFreePrefixLen r2 := by
      rw [le_nlFreePrefixLen_iff]
      refine ⟨by rw [← hr2eq, List.length_append]; omega, ?_⟩
      rw [← hr2eq, List.take_left]
      exact hnls'
    have hbody : (docStep3Body (r1.take i1) (r2.take s'.length) (r2.drop s'.length)).isSome
        = true := by
      simp only [docStep3Body]
      rw [← hr2eq, List.drop_left,
        (stripLitCI_eq_some_iff LIT3 (w' ++ rest') rest').mpr ⟨w', rfl, hw'⟩]
      rfl
    by_contra hgt
    push_neg at hgt
    rw [hsi2] at hgt
    rw [hi2max s'.length hgt hs'len] at hbody
    exact Bool.noConfusion hbody

/-- C3 fails on the code in two ways.  First, the captures are greedy, not
non-greedy: on a message where the name could stop at the next literal
token (`a`), the returned name instead spans past it.  Second, an
arbitrary prefix is not permitted: a newline before `domain` defeats the
match although the template text is contained in the message. -/
theorem claim_C3_counterexample :
    DomainOccupied.from_message
        (("domain a is occupied, please retry in 1 seconds b is occupied, please retry in 2 seconds").data) =
      some { domain := ("a is occupied, please retry in 1 seconds b").data,
             retry_seconds := PyFloat.finite 2 0 } ∧
    ("a is occupied, please retry in 1 seconds b").data ≠ ("a").data ∧
    DomainOccupied.from_message
        (("foo\ndomain x is occupied, please retry in 5 seconds").data) = none := by
  refine ⟨by decide, by decide, by decide⟩

/-- C3 amended: `from_message` returns a directive exactly for the messages
admitting a valid decomposition — prefix, then the three literal tokens
case-insensitively with nonempty captures between them, everything up to
the last literal newline-free, and arbitrary trailing text — and the
returned captures are the greedy ones: among valid decompositions the
prefix length is maximal, then the group-1 length, then the group-2
length. -/
theorem claim_C3_amended :
    (∀ m : List Char,
       (DomainOccupied.from_message m).isSome = true ↔ ∃ p n s, ValidDecompP m p n s) ∧
    (∀ m n s : List Char, domainOccupiedRegexMatch m = some (n, s) →
       ∃ p, ValidDecompP m p n s ∧
         (∀ p' n' s', ValidDecompP m p' n' s' → p'.length ≤ p.length) ∧
         (∀ n' s', ValidDecompP m p n' s' → n'.length ≤ n.length) ∧
         (∀ s', ValidDecompP m p n s' → s'.length ≤ s.length)) := by
  refine ⟨fun m => ?_, regexMatch_greedy⟩
  rw [from_message_isSome_eq]
  exact regexMatch_isSome_iff m

/-- Witness for C3 at the spec's scenario message. -/
theorem claim_C3_witness :
    domainOccupiedRegexMatch
        (("Domain example.com is occupied, please retry in 45 seconds.").data) =
      some ((("example.com").data), (("45").data)) ∧
    ∃ p, ValidDecompP (("Domain example.com is occupied, please retry in 45 seconds.").data)
          p (("example.com").data) (("45").data) ∧
      (∀ p' n' s', ValidDecompP
          (("Domain example.com is occupied, please retry in 45 seconds.").data) p' n' s' →
          p'.length ≤ p.length) ∧
      (∀ n' s', ValidDecompP
          (("Domain example.com is occupied, please retry in 45 seconds.").data) p n' s' →
          n'.length ≤ (("example.com").data).length) ∧
      (∀ s', ValidDecompP
          (("Domain example.com is occupied, please retry in 45 seconds.").data) p
            (("example.com").data) s' →
          s'.length ≤ (("45").data).length) :=
  ⟨by decide,
   claim_C3_amended.2 (("Domain example.com is occupied, please retry in 45 seconds.").data)
     (("example.com").data) (("45").data) (by decide)⟩
